import Mathlib

/-!
Verification development for `personalized_Outreach_Generator.py`.

The program reads prospect rows from a CSV, calls a completion service once
per row, parses the fixed-format reply (`Subject:` / `Opener:` / `Bullets:` /
`CTA:`), composes a plain-text email body and writes an augmented CSV row,
accumulating token usage and an estimated cost.

The embedding below models Python strings as Lean `String`s (operating on
their underlying `List Char`), Python `str.strip`/`str.lower`/
`str.startswith`/`str.splitlines` by the char-level functions `pyStrip`,
`pyLower`, `pyStartsWith`, `pySplitlines` (ASCII case-folding and the common
line separator `'\n'`, which is all the claims exercise), Python floats by
exact rationals, and the external completion client by an oracle function
from the four interpolated fields to a reply and a `Usage`.
-/

namespace Outreach

/-- Whitespace characters removed by Python `str.strip()` (ASCII subset). -/
def isPySpace (c : Char) : Bool :=
  c = ' ' || c = '\t' || c = '\n' || c = '\r' || c = '\x0b' || c = '\x0c'

/-- Character-list form of Python `str.strip()`: drop leading and trailing
whitespace. -/
def stripL (cs : List Char) : List Char :=
  ((cs.dropWhile isPySpace).reverse.dropWhile isPySpace).reverse

/-- Models Python `s.strip()`. -/
def pyStrip (s : String) : String := ⟨stripL s.data⟩

/-- Character-list form of ASCII lowering. -/
def lowerL (cs : List Char) : List Char := cs.map Char.toLower

/-- Models Python `s.lower()` (ASCII case-folding; the markers compared
against are all ASCII). -/
def pyLower (s : String) : String := ⟨lowerL s.data⟩

/-- Models Python `s.startswith(pre)`. -/
def pyStartsWith (s pre : String) : Bool := pre.data.isPrefixOf s.data

/-- Character-list splitter on `'\n'`, modelling Python `str.splitlines()`
for newline-separated text.  (Python drops a final empty piece after a
trailing newline; the parser filters empty stripped lines right after
splitting, so the two behaviours agree at every use site.) -/
def splitlinesL : List Char → List (List Char)
  | [] => [[]]
  | c :: rest =>
    if c = '\n' then [] :: splitlinesL rest
    else
      match splitlinesL rest with
      | [] => [[c]]
      | h :: t => (c :: h) :: t

/-- Models Python `s.splitlines()` (up to trailing empty pieces, see
`splitlinesL`). -/
def pySplitlines (s : String) : List String :=
  (splitlinesL s.data).map (fun cs => ⟨cs⟩)

/-- Models Python `l.split(":", 1)[1]`: everything after the first colon.
Every call site first checks `startswith` on a marker containing `':'`, so
the colon exists there; on colon-free input this total model returns `""`
where Python would raise, a path the source never reaches. -/
def afterFirstColon (s : String) : String :=
  ⟨(s.data.dropWhile (fun c => c != ':')).tail⟩

/-- Models Python `l[1:]`. -/
def pyTail (s : String) : String := ⟨s.data.tail⟩

/-- Models the dict returned by `parse_output`: the six output fields. -/
structure ParsedOut where
  subject : String
  opener : String
  bullet1 : String
  bullet2 : String
  bullet3 : String
  cta : String
deriving Repr, DecidableEq

/-- Loop state of `parse_output`: the fields assigned so far, the collected
bullet list, and whether `section` currently equals `"bullets"`. -/
structure ParseState where
  subject : String
  opener : String
  cta : String
  bullets : List String
  inBullets : Bool
deriving Repr, DecidableEq

/-- State at loop entry: empty fields, no bullets, `section = None`. -/
def initParseState : ParseState :=
  { subject := "", opener := "", cta := "", bullets := [], inBullets := false }

/-- One iteration of the `for l in lines` loop of `parse_output`
(`src/personalized_Outreach_Generator.py` lines 77-88): the `continue`-laden
body is an if-chain; `Subject:`/`Opener:`/`CTA:` prefixes (case-insensitive)
extract everything after the first colon and reset the section marker,
`Bullets:` enters bullet mode, and a leading `-` while in bullet mode
collects a bullet. -/
def parseStep (st : ParseState) (l : String) : ParseState :=
  let low := pyLower l
  if pyStartsWith low "subject:" then
    { st with subject := pyStrip (afterFirstColon l), inBullets := false }
  else if pyStartsWith low "opener:" then
    { st with opener := pyStrip (afterFirstColon l), inBullets := false }
  else if pyStartsWith low "bullets:" then
    { st with inBullets := true }
  else if pyStartsWith l "-" && st.inBullets then
    { st with bullets := st.bullets ++ [pyStrip (pyTail l)] }
  else if pyStartsWith low "cta:" then
    { st with cta := pyStrip (afterFirstColon l), inBullets := false }
  else
    st

/-- Models line 74: `[l.strip() for l in text.splitlines() if l.strip()]`. -/
def parseLines (text : String) : List String :=
  ((pySplitlines text).map pyStrip).filter (fun l => l != "")

/-- Models `parse_output` (lines 72-91): scan the trimmed non-empty lines,
then populate `bullet1..3` from the first three collected bullets,
defaulting missing ones to `""`. -/
def parse_output (text : String) : ParsedOut :=
  let st := (parseLines text).foldl parseStep initParseState
  { subject := st.subject
    opener := st.opener
    bullet1 := st.bullets.getD 0 ""
    bullet2 := st.bullets.getD 1 ""
    bullet3 := st.bullets.getD 2 ""
    cta := st.cta }

/-- Character-level form of `"\n".join`: single newlines between elements,
none after the last. -/
def joinL : List (List Char) → List Char
  | [] => []
  | [x] => x
  | x :: y :: t => x ++ '\n' :: joinL (y :: t)

/-- Models `"\n".join(body_lines)` (line 122): single newlines, no separator
added after the last line. -/
def joinLines (ls : List String) : String :=
  ⟨joinL (ls.map String.data)⟩

/-- Models the `body_lines` list built by `build_email_body` (lines 93-121):
opener; if any trimmed bullet is non-empty, a blank line, the heading chosen
by `lang.lower().startswith("ro")`, and one `- <bullet>` line per non-empty
trimmed bullet in order; if the trimmed call-to-action is non-empty, a blank
line and the call-to-action; then a blank line, `Best,` and the signature.
(`company`, `niche` and the parsed subject are bound but unused in the
source body; the unused parameters are kept for fidelity.) -/
def build_email_body_lines (company niche : String) (parsed : ParsedOut)
    (lang : String) : List String :=
  let _ := company
  let _ := niche
  let b1 := pyStrip parsed.bullet1
  let b2 := pyStrip parsed.bullet2
  let b3 := pyStrip parsed.bullet3
  let cta := pyStrip parsed.cta
  [pyStrip parsed.opener]
    ++ (if b1 != "" || b2 != "" || b3 != "" then
          ["",
           if pyStartsWith (pyLower lang) "ro" then
             "Ce putem livra în 1 săptămână:"
           else
             "What we can deliver in 1 week:"]
          ++ (if b1 != "" then ["- " ++ b1] else [])
          ++ (if b2 != "" then ["- " ++ b2] else [])
          ++ (if b3 != "" then ["- " ++ b3] else [])
        else [])
    ++ (if cta != "" then ["", cta] else [])
    ++ ["", "Best,", "Magnusbane Team"]

/-- Models `build_email_body` (lines 93-122). -/
def build_email_body (company niche : String) (parsed : ParsedOut)
    (lang : String) : String :=
  joinLines (build_email_body_lines company niche parsed lang)

/-- Models the `Usage` dataclass (lines 18-22): non-negative token counters
with zero defaults. -/
structure Usage where
  prompt_tokens : Nat := 0
  completion_tokens : Nat := 0
  total_tokens : Nat := 0
deriving Repr, DecidableEq

/-- Pricing constant `INPUT_PER_TOKEN = 0.15 / 1_000_000` (line 7); Python
float arithmetic is modelled by exact rationals. -/
def INPUT_PER_TOKEN : ℚ := 0.15 / 1000000

/-- Pricing constant `OUTPUT_PER_TOKEN = 0.60 / 1_000_000` (line 8). -/
def OUTPUT_PER_TOKEN : ℚ := 0.60 / 1000000

/-- Models `est_cost` (lines 24-25). -/
def est_cost (u : Usage) : ℚ :=
  u.prompt_tokens * INPUT_PER_TOKEN + u.completion_tokens * OUTPUT_PER_TOKEN

/-- Decimal digit character for `d % 10`-style arguments. -/
def digitChar (d : Nat) : Char :=
  match d with
  | 0 => '0' | 1 => '1' | 2 => '2' | 3 => '3' | 4 => '4'
  | 5 => '5' | 6 => '6' | 7 => '7' | 8 => '8' | _ => '9'

/-- Accumulator pass producing the decimal digits of a positive natural. -/
def natToDigitsAux : Nat → List Char → List Char
  | 0, acc => acc
  | n + 1, acc => natToDigitsAux ((n + 1) / 10) (digitChar ((n + 1) % 10) :: acc)
decreasing_by exact Nat.div_lt_self (Nat.succ_pos n) (by norm_num)

/-- Decimal rendering of a natural number. -/
def natToString (n : Nat) : String :=
  if n = 0 then "0" else ⟨natToDigitsAux n []⟩

/-- Exactly six zero-padded decimal digits of `k < 10^6`. -/
def sixDigits (k : Nat) : List Char :=
  [digitChar (k / 100000 % 10), digitChar (k / 10000 % 10),
   digitChar (k / 1000 % 10), digitChar (k / 100 % 10),
   digitChar (k / 10 % 10), digitChar (k % 10)]

/-- Models the Python format specifier `f"{x:.6f}"` for the non-negative
cost values this program renders: scale by `10^6`, round to an integer, and
print the integer part, a dot, and six zero-padded fractional digits. -/
def formatFixed6 (q : ℚ) : String :=
  let m : Nat := (round (q * 1000000)).toNat
  natToString (m / 1000000) ++ "." ++ ⟨sixDigits (m % 1000000)⟩

/-- Models the per-row `est_cost_usd` cell `f"{est_cost(usage):.6f}"`
(line 181). -/
def est_cost_usd_str (u : Usage) : String := formatFixed6 (est_cost u)

/-- Models one input CSV row as read by `csv.DictReader`: a present column
yields `some value` (possibly empty), a missing column yields `none`. -/
structure Row where
  company_name : Option String := none
  niche : Option String := none
  website : Option String := none
  lang : Option String := none
deriving Repr, DecidableEq

/-- Models Python `x or fallback` on an optional string cell: `None` and the
empty string are falsy, every other string is returned unchanged. -/
def pyOrStr (v : Option String) (fallback : String) : String :=
  match v with
  | none => fallback
  | some s => if s = "" then fallback else s

/-- Models line 161,
`(row.get("lang") or args.default_lang).strip() or args.default_lang`:
the effective language used for generation, body composition and the output
record. -/
def effLang (langField : Option String) (defaultLang : String) : String :=
  let l := pyStrip (pyOrStr langField defaultLang)
  if l = "" then defaultLang else l

/-- Abstraction of the OpenAI client: maps the four interpolated prompt
fields (company, niche, website, lang) to the reply text and its reported
token usage. -/
def Oracle : Type := String → String → String → String → String × Usage

/-- Models `call_model` (lines 54-70): forward the four fields to the
service and strip the returned content.  (The `website or "N/A"` fallback
only rewords the prompt the oracle consumes; the oracle receives the raw
field.) -/
def call_model (client : Oracle) (company niche website lang : String) :
    String × Usage :=
  let r := client company niche website lang
  (pyStrip r.1, r.2)

/-- Models one output CSV row (the `writer.writerow` dict of lines 174-182,
with the `fieldnames` of lines 150-153). -/
structure OutRecord where
  company_name : String
  niche : String
  website : String
  lang : String
  subject : String
  opener : String
  bullet1 : String
  bullet2 : String
  bullet3 : String
  cta : String
  email_body : String
  prompt_tokens : Nat
  completion_tokens : Nat
  total_tokens : Nat
  est_cost_usd : String
deriving Repr, DecidableEq

/-- Models lines 170-172: component-wise accumulation of a row's usage into
the running total. -/
def addUsage (t u : Usage) : Usage :=
  { prompt_tokens := t.prompt_tokens + u.prompt_tokens
    completion_tokens := t.completion_tokens + u.completion_tokens
    total_tokens := t.total_tokens + u.total_tokens }

/-- Observable state of the main loop: rows written to the output CSV, rows
printed as skipped, and the running usage total. -/
structure RunState where
  records : List OutRecord
  skipped : List Row
  total : Usage
deriving Repr, DecidableEq

/-- State before the first iteration: header written, nothing emitted,
`total = Usage()` (line 146). -/
def initRunState : RunState := { records := [], skipped := [], total := {} }

/-- Models the body of `for row in reader` (lines 157-182) up to the skip
check: `None` on the skip path (`not company or not niche`), otherwise the
output record paired with the usage the service reported for the row. -/
def rowOutcome (client : Oracle) (defaultLang : String) (row : Row) :
    Option (OutRecord × Usage) :=
  let company := pyStrip (row.company_name.getD "")
  let niche := pyStrip (row.niche.getD "")
  let website := pyStrip (row.website.getD "")
  let lang := effLang row.lang defaultLang
  if company = "" || niche = "" then none
  else
    let tu := call_model client company niche website lang
    let parsed := parse_output tu.1
    let email_body := build_email_body company niche parsed lang
    some ({ company_name := company, niche := niche, website := website,
            lang := lang,
            subject := parsed.subject, opener := parsed.opener,
            bullet1 := parsed.bullet1, bullet2 := parsed.bullet2,
            bullet3 := parsed.bullet3, cta := parsed.cta,
            email_body := email_body,
            prompt_tokens := tu.2.prompt_tokens,
            completion_tokens := tu.2.completion_tokens,
            total_tokens := tu.2.total_tokens,
            est_cost_usd := est_cost_usd_str tu.2 }, tu.2)

/-- Record emitted for a row, if any. -/
def rowRecord (client : Oracle) (defaultLang : String) (row : Row) :
    Option OutRecord :=
  (rowOutcome client defaultLang row).map Prod.fst

/-- Usage the service reports for a processed row. -/
def rowUsage (client : Oracle) (defaultLang : String) (row : Row) : Usage :=
  ((rowOutcome client defaultLang row).map Prod.snd).getD {}

/-- Whether the loop processes the row (both required fields non-empty after
trimming, line 162). -/
def isValidRow (row : Row) : Bool :=
  !(pyStrip (row.company_name.getD "") = "" || pyStrip (row.niche.getD "") = "")

/-- One iteration of the main loop: a skipped row is logged and the state is
otherwise unchanged; a processed row appends its output record and
accumulates its usage (the `time.sleep` pacing has no observable effect on
this state). -/
def mainStep (client : Oracle) (defaultLang : String) (st : RunState)
    (row : Row) : RunState :=
  match rowOutcome client defaultLang row with
  | none => { st with skipped := st.skipped ++ [row] }
  | some ru =>
      { st with records := st.records ++ [ru.1],
                total := addUsage st.total ru.2 }

/-- Models the whole `for row in reader` loop (lines 157-184). -/
def runMain (client : Oracle) (defaultLang : String) (rows : List Row) :
    RunState :=
  rows.foldl (mainStep client defaultLang) initRunState

/-- Models the total cost printed at line 186-189: `est_cost(total)`. -/
def grandCost (st : RunState) : ℚ := est_cost st.total

/-- Models the configuration checks and the run of `main` (lines 124-189):
the credential check (line 125-126) happens before anything else, the
input-file existence check (lines 137-139) happens before the output file is
opened and before any row is read; only then does the loop run.  The
environment is an association list, file existence a boolean input. -/
def main_run (env : List (String × String)) (infile : String)
    (infileExists : Bool) (client : Oracle) (defaultLang : String)
    (rows : List Row) : Except String RunState :=
  if (env.lookup "OPENAI_API_KEY").isNone then
    .error "Missing OPENAI_API_KEY. Put it in your environment or a .env file."
  else if !infileExists then
    .error ("Input CSV not found: " ++ infile)
  else
    .ok (runMain client defaultLang rows)

/-- Synthetic response text exactly in the documented output format
(lines 44-51 of the prompt template): a `Subject:` line, an `Opener:` line,
the `Bullets:` marker, one `- <bullet>` line per bullet, and a `CTA:`
line. -/
def docFormat (s o : String) (bs : List String) (c : String) : String :=
  joinLines (["Subject: " ++ s, "Opener: " ++ o, "Bullets:"]
    ++ bs.map (fun b => "- " ++ b) ++ ["CTA: " ++ c])

/-- Specification-side body description, following §4.4 of the spec with
the amendment forced by the code: emptiness of the opener, bullets and
call-to-action is judged after trimming, and the emitted lines carry the
trimmed texts.  Compared against `build_email_body` for the refinement
claim. -/
def spec_email_body_lines (parsed : ParsedOut) (lang : String) : List String :=
  let bs := ([pyStrip parsed.bullet1, pyStrip parsed.bullet2,
    pyStrip parsed.bullet3]).filter (fun b => b != "")
  let cta := pyStrip parsed.cta
  [pyStrip parsed.opener]
    ++ (if bs != [] then
          ["",
           if pyStartsWith (pyLower lang) "ro" then
             "Ce putem livra în 1 săptămână:"
           else
             "What we can deliver in 1 week:"]
          ++ bs.map (fun b => "- " ++ b)
        else [])
    ++ (if cta != "" then ["", cta] else [])
    ++ ["", "Best,", "Magnusbane Team"]

/-- Number of characters after the first `'.'` of a rendered value. -/
def decimalPlaces (s : String) : Nat :=
  ((s.data.dropWhile (fun c => c != '.')).tail).length

/-! ## Supporting lemmas about the modelled Python string primitives -/

/-- Lines holding no newline character pass through `splitlinesL` whole. -/
theorem splitlinesL_no_newline (cs : List Char) (h : '\n' ∉ cs) :
    splitlinesL cs = [cs] := by
  induction cs with
  | nil => rfl
  | cons c t ih =>
      have hc : c ≠ '\n' := fun hc => h (hc ▸ List.mem_cons_self c t)
      have ht : '\n' ∉ t := fun m => h (List.mem_cons_of_mem c m)
      simp [splitlinesL, hc, ih ht]

/-- Splitting after a newline-free first line peels that line off. -/
theorem splitlinesL_append (xs ys : List Char) (h : '\n' ∉ xs) :
    splitlinesL (xs ++ '\n' :: ys) = xs :: splitlinesL ys := by
  induction xs with
  | nil => simp [splitlinesL]
  | cons c t ih =>
      have hc : c ≠ '\n' := fun hc => h (hc ▸ List.mem_cons_self c t)
      have ht : '\n' ∉ t := fun m => h (List.mem_cons_of_mem c m)
      simp only [List.cons_append, splitlinesL, hc, if_false, List.append_eq,
        ih ht]

/-- Splitting a `joinL` of newline-free lines recovers exactly the lines. -/
theorem splitlinesL_joinL (ls : List (List Char)) (hne : ls ≠ [])
    (h : ∀ l ∈ ls, '\n' ∉ l) : splitlinesL (joinL ls) = ls := by
  induction ls with
  | nil => exact absurd rfl hne
  | cons x t ih =>
      cases t with
      | nil => exact splitlinesL_no_newline x (h x (by simp))
      | cons y u =>
          have hx : '\n' ∉ x := h x (by simp)
          have hrest : ∀ l ∈ y :: u, '\n' ∉ l := fun l hl => h l (by simp [hl])
          simp only [joinL, splitlinesL_append x _ hx]
          rw [ih (by simp) hrest]

/-- Dropping never lengthens a list. -/
theorem dropWhile_length_le (p : Char → Bool) (l : List Char) :
    (l.dropWhile p).length ≤ l.length := by
  induction l with
  | nil => simp
  | cons c t ih =>
      by_cases h : p c = true
      · simp only [List.dropWhile_cons, h, if_true]
        exact Nat.le_succ_of_le ih
      · simp [List.dropWhile_cons, h]

/-- A `dropWhile` that keeps the length keeps the list. -/
theorem dropWhile_eq_self_of_length (p : Char → Bool) (l : List Char)
    (h : (l.dropWhile p).length = l.length) : l.dropWhile p = l := by
  cases l with
  | nil => rfl
  | cons c t =>
      by_cases hc : p c = true
      · exfalso
        have hle := dropWhile_length_le p t
        simp only [List.dropWhile_cons, hc, if_true] at h
        simp only [List.length_cons] at h
        omega
      · simp [List.dropWhile_cons, hc]

/-- A trimmed list has no leading whitespace to drop. -/
theorem trimmed_dropWhile {cs : List Char} (h : stripL cs = cs) :
    cs.dropWhile isPySpace = cs := by
  apply dropWhile_eq_self_of_length
  have h1 := dropWhile_length_le isPySpace cs
  have h2 := dropWhile_length_le isPySpace (cs.dropWhile isPySpace).reverse
  have h3 := congrArg List.length h
  simp only [stripL, List.length_reverse] at h3
  simp only [List.length_reverse] at h2
  omega

/-- A trimmed list has no trailing whitespace to drop. -/
theorem trimmed_dropWhile_reverse {cs : List Char} (h : stripL cs = cs) :
    cs.reverse.dropWhile isPySpace = cs.reverse := by
  have h1 := trimmed_dropWhile h
  have h2 : stripL cs = (cs.reverse.dropWhile isPySpace).reverse := by
    simp only [stripL, h1]
  rw [h] at h2
  calc cs.reverse.dropWhile isPySpace
      = ((cs.reverse.dropWhile isPySpace).reverse).reverse := by simp
    _ = cs.reverse := by rw [← h2]

/-- The head of a list that an identity `dropWhile` keeps fails the
predicate. -/
theorem head_false_of_dropWhile_eq_self {p : Char → Bool} {c : Char}
    {t : List Char} (h : List.dropWhile p (c :: t) = c :: t) : p c = false := by
  by_contra hb
  have hc : p c = true := by
    cases hpc : p c
    · exact absurd hpc hb
    · rfl
  rw [List.dropWhile_cons, if_pos hc] at h
  have hlen := congrArg List.length h
  have hle := dropWhile_length_le p t
  simp only [List.length_cons] at hlen
  omega

/-- Dropping skips a block of all-satisfying elements. -/
theorem dropWhile_append_all {p : Char → Bool} {l r : List Char}
    (h : ∀ c ∈ l, p c = true) : List.dropWhile p (l ++ r) = List.dropWhile p r := by
  induction l with
  | nil => rfl
  | cons c t ih =>
      simp only [List.cons_append, List.dropWhile_cons, h c (by simp), if_true]
      exact ih (fun x hx => h x (by simp [hx]))

/-- Appending a non-empty trimmed tail to a line starting with a
non-whitespace character leaves nothing for `stripL` to remove. -/
theorem stripL_cons_append {c : Char} {t s : List Char}
    (hc : isPySpace c = false) (hs : stripL s = s) (hne : s ≠ []) :
    stripL ((c :: t) ++ s) = (c :: t) ++ s := by
  have hrev : s.reverse ≠ [] := by
    intro hr
    exact hne (by simpa using congrArg List.reverse hr)
  obtain ⟨d, u, hdu⟩ : ∃ d u, s.reverse = d :: u := by
    cases hs' : s.reverse with
    | nil => exact absurd hs' hrev
    | cons d u => exact ⟨d, u, rfl⟩
  have hd : isPySpace d = false := by
    have := trimmed_dropWhile_reverse hs
    rw [hdu] at this
    exact head_false_of_dropWhile_eq_self this
  have lead : ((c :: t) ++ s).dropWhile isPySpace = (c :: t) ++ s := by
    rw [List.cons_append, List.dropWhile_cons, if_neg (by simp [hc])]
  have key : ((c :: t) ++ s).reverse.dropWhile isPySpace = ((c :: t) ++ s).reverse := by
    rw [List.reverse_append, hdu, List.cons_append, List.dropWhile_cons,
      if_neg (by simp [hd])]
  unfold stripL
  rw [lead, key, List.reverse_reverse]

/-- Stripping a single leading space of a trimmed list. -/
theorem stripL_space_cons {s : List Char} (hs : stripL s = s) :
    stripL (' ' :: s) = s := by
  unfold stripL
  rw [List.dropWhile_cons, if_pos (by decide), trimmed_dropWhile hs,
    trimmed_dropWhile_reverse hs]
  simp

/-- A dash followed by whitespace only strips to the bare dash. -/
theorem stripL_dash_spaces {w : List Char}
    (hw : ∀ c ∈ w, isPySpace c = true) : stripL ('-' :: w) = ['-'] := by
  unfold stripL
  rw [List.dropWhile_cons, if_neg (by decide)]
  rw [show ('-' :: w).reverse = w.reverse ++ ['-'] by simp]
  rw [dropWhile_append_all (fun x hx => hw x (by simpa using hx))]
  rfl

/-- Strings are equal when their character data is. -/
theorem strEq_of_data {a b : String} (h : a.data = b.data) : a = b := by
  cases a; cases b; exact congrArg String.mk h

/-- A string differing from `""` has non-empty data. -/
theorem data_ne_nil_of_ne_empty {s : String} (h : s ≠ "") : s.data ≠ [] := by
  intro hd
  exact h (strEq_of_data (by simpa using hd))

/-- Marker lines carry their own strip: a line made of a marker starting in
a non-whitespace character followed by non-empty trimmed text is trimmed. -/
theorem pyStrip_append_of {pre s : String} {c : Char} {t : List Char}
    (hpre : pre.data = c :: t) (hc : isPySpace c = false)
    (hs : pyStrip s = s) (hne : s ≠ "") : pyStrip (pre ++ s) = pre ++ s := by
  apply strEq_of_data
  show stripL (pre ++ s).data = (pre ++ s).data
  rw [String.data_append, hpre]
  exact stripL_cons_append hc (congrArg String.data hs)
    (data_ne_nil_of_ne_empty hne)

/-- The `Subject:` branch of the scan loop: a `Subject: <text>` line stores
the trimmed text and resets the section marker. -/
theorem parseStep_subject (st : ParseState) (s : String)
    (hs : pyStrip s = s) :
    parseStep st ("Subject: " ++ s) = { st with subject := s, inBullets := false } := by
  have h1 : pyStartsWith (pyLower ("Subject: " ++ s)) "subject:" = true := by
    simp only [pyStartsWith, pyLower, lowerL, String.data_append,
      List.map_append]
    rfl
  have h2 : pyStrip (afterFirstColon ("Subject: " ++ s)) = s := by
    rw [show afterFirstColon ("Subject: " ++ s) = ⟨' ' :: s.data⟩ from rfl]
    show (⟨stripL (' ' :: s.data)⟩ : String) = s
    rw [stripL_space_cons (congrArg String.data hs)]
  simp only [parseStep, h1, if_true, h2]

/-- The `Opener:` branch of the scan loop. -/
theorem parseStep_opener (st : ParseState) (s : String)
    (hs : pyStrip s = s) :
    parseStep st ("Opener: " ++ s) = { st with opener := s, inBullets := false } := by
  have h0 : pyStartsWith (pyLower ("Opener: " ++ s)) "subject:" = false := by
    simp only [pyStartsWith, pyLower, lowerL, String.data_append,
      List.map_append]
    rfl
  have h1 : pyStartsWith (pyLower ("Opener: " ++ s)) "opener:" = true := by
    simp only [pyStartsWith, pyLower, lowerL, String.data_append,
      List.map_append]
    rfl
  have h2 : pyStrip (afterFirstColon ("Opener: " ++ s)) = s := by
    rw [show afterFirstColon ("Opener: " ++ s) = ⟨' ' :: s.data⟩ from rfl]
    show (⟨stripL (' ' :: s.data)⟩ : String) = s
    rw [stripL_space_cons (congrArg String.data hs)]
  simp only [parseStep, h0, h1, if_true, if_false, Bool.false_eq_true, h2]

/-- The `Bullets:` marker line turns bullet mode on. -/
theorem parseStep_bullets_marker (st : ParseState) :
    parseStep st "Bullets:" = { st with inBullets := true } := rfl

/-- A `- <text>` line while in bullet mode appends the trimmed text to the
collected bullets. -/
theorem parseStep_dash (st : ParseState) (b : String)
    (hb : pyStrip b = b) (hst : st.inBullets = true) :
    parseStep st ("- " ++ b) = { st with bullets := st.bullets ++ [b] } := by
  have h0 : pyStartsWith (pyLower ("- " ++ b)) "subject:" = false := by
    simp only [pyStartsWith, pyLower, lowerL, String.data_append,
      List.map_append]
    rfl
  have h1 : pyStartsWith (pyLower ("- " ++ b)) "opener:" = false := by
    simp only [pyStartsWith, pyLower, lowerL, String.data_append,
      List.map_append]
    rfl
  have h2 : pyStartsWith (pyLower ("- " ++ b)) "bullets:" = false := by
    simp only [pyStartsWith, pyLower, lowerL, String.data_append,
      List.map_append]
    rfl
  have h3 : pyStartsWith ("- " ++ b) "-" = true := by
    simp only [pyStartsWith, String.data_append]
    rfl
  have h4 : pyStrip (pyTail ("- " ++ b)) = b := by
    rw [show pyTail ("- " ++ b) = ⟨' ' :: b.data⟩ from rfl]
    show (⟨stripL (' ' :: b.data)⟩ : String) = b
    rw [stripL_space_cons (congrArg String.data hb)]
  simp only [parseStep, h0, h1, h2, h3, hst, h4, Bool.and_self, if_true,
    if_false, Bool.false_eq_true]

/-- A bare `-` line while in bullet mode appends an empty bullet. -/
theorem parseStep_dash_empty (st : ParseState) (hst : st.inBullets = true) :
    parseStep st "-" = { st with bullets := st.bullets ++ [""] } := by
  simp only [parseStep, hst]
  rfl

/-- The `CTA:` branch of the scan loop. -/
theorem parseStep_cta (st : ParseState) (s : String) (hs : pyStrip s = s) :
    parseStep st ("CTA: " ++ s) = { st with cta := s, inBullets := false } := by
  have h0 : pyStartsWith (pyLower ("CTA: " ++ s)) "subject:" = false := by
    simp only [pyStartsWith, pyLower, lowerL, String.data_append,
      List.map_append]
    rfl
  have h1 : pyStartsWith (pyLower ("CTA: " ++ s)) "opener:" = false := by
    simp only [pyStartsWith, pyLower, lowerL, String.data_append,
      List.map_append]
    rfl
  have h2 : pyStartsWith (pyLower ("CTA: " ++ s)) "bullets:" = false := by
    simp only [pyStartsWith, pyLower, lowerL, String.data_append,
      List.map_append]
    rfl
  have h3 : pyStartsWith ("CTA: " ++ s) "-" = false := by
    simp only [pyStartsWith, String.data_append]
    rfl
  have h4 : pyStartsWith (pyLower ("CTA: " ++ s)) "cta:" = true := by
    simp only [pyStartsWith, pyLower, lowerL, String.data_append,
      List.map_append]
    rfl
  have h5 : pyStrip (afterFirstColon ("CTA: " ++ s)) = s := by
    rw [show afterFirstColon ("CTA: " ++ s) = ⟨' ' :: s.data⟩ from rfl]
    show (⟨stripL (' ' :: s.data)⟩ : String) = s
    rw [stripL_space_cons (congrArg String.data hs)]
  simp only [parseStep, h0, h1, h2, h3, h4, h5, Bool.false_and, if_true,
    if_false, Bool.false_eq_true]

/-- Joining trimmed non-empty newline-free lines and re-scanning them in
`parse_output` recovers exactly those lines. -/
theorem parseLines_joinLines (ls : List String) (hne : ls ≠ [])
    (hnl : ∀ l ∈ ls, '\n' ∉ l.data) (hstrip : ∀ l ∈ ls, pyStrip l = l)
    (hnonempty : ∀ l ∈ ls, l ≠ "") : parseLines (joinLines ls) = ls := by
  unfold parseLines pySplitlines joinLines
  rw [show (String.mk (joinL (ls.map String.data))).data = joinL (ls.map String.data) from rfl]
  rw [splitlinesL_joinL (ls.map String.data)
    (by simpa using hne)
    (by
      intro l hl
      obtain ⟨x, hx, rfl⟩ := List.mem_map.mp hl
      exact hnl x hx)]
  rw [List.map_map, List.map_map]
  have hmap : ls.map ((pyStrip ∘ fun cs => String.mk cs) ∘ String.data) = ls := by
    rw [show ((pyStrip ∘ fun cs => String.mk cs) ∘ String.data) = pyStrip from rfl]
    calc ls.map pyStrip = ls.map id := List.map_congr_left (fun l hl => hstrip l hl)
      _ = ls := List.map_id ls
  rw [hmap]
  apply List.filter_eq_self.mpr
  intro l hl
  simpa using hnonempty l hl

/-- Bullet-mode lines accumulate their trimmed texts in encounter order. -/
theorem foldl_dash_lines (bs : List String) :
    ∀ st : ParseState, st.inBullets = true →
      (∀ b ∈ bs, pyStrip b = b) →
      List.foldl parseStep st (bs.map (fun b => "- " ++ b)) =
        { st with bullets := st.bullets ++ bs } := by
  induction bs with
  | nil => intro st _ _; simp
  | cons b u ih =>
      intro st hst hbs
      simp only [List.map_cons, List.foldl_cons]
      rw [parseStep_dash st b (hbs b (by simp)) hst]
      rw [ih _ (by simpa using hst) (fun x hx => hbs x (by simp [hx]))]
      simp


/-- Marker-plus-text lines are trimmed, non-empty and newline-free when the
text is. -/
theorem markerLine_good {pre s : String} {c : Char} {t : List Char}
    (hpre : pre.data = c :: t) (hc : isPySpace c = false)
    (hprenl : '\n' ∉ pre.data)
    (hs : pyStrip s = s ∧ s ≠ "" ∧ '\n' ∉ s.data) :
    pyStrip (pre ++ s) = pre ++ s ∧ (pre ++ s) ≠ "" ∧ '\n' ∉ (pre ++ s).data := by
  refine ⟨pyStrip_append_of hpre hc hs.1 hs.2.1, ?_, ?_⟩
  · intro h
    have := congrArg String.data h
    rw [String.data_append, hpre] at this
    simp at this
  · rw [String.data_append]
    intro hmem
    rcases List.mem_append.mp hmem with h | h
    · exact hprenl h
    · exact hs.2.2 h

/-- C2: a synthetic response exactly in the documented format with bullet
texts `bs` parses to the subject, opener and CTA texts, with `bullet1..3`
holding the first three bullets in encounter order and `""` for the
remainder; bullets beyond the third are discarded.  (Texts are non-empty,
trimmed and newline-free, as produced lines of the documented format.) -/
theorem parse_output_roundtrip (s o c : String) (bs : List String)
    (hs : pyStrip s = s ∧ s ≠ "" ∧ '\n' ∉ s.data)
    (ho : pyStrip o = o ∧ o ≠ "" ∧ '\n' ∉ o.data)
    (hc : pyStrip c = c ∧ c ≠ "" ∧ '\n' ∉ c.data)
    (hbs : ∀ b ∈ bs, pyStrip b = b ∧ b ≠ "" ∧ '\n' ∉ b.data) :
    parse_output (docFormat s o bs c) =
      { subject := s, opener := o, bullet1 := bs.getD 0 "",
        bullet2 := bs.getD 1 "", bullet3 := bs.getD 2 "", cta := c } := by
  have hsubj := markerLine_good
    (show "Subject: ".data = 'S' :: "ubject: ".data from rfl)
    (by decide) (by decide) hs
  have hopen := markerLine_good
    (show "Opener: ".data = 'O' :: "pener: ".data from rfl)
    (by decide) (by decide) ho
  have hcta := markerLine_good
    (show "CTA: ".data = 'C' :: "TA: ".data from rfl)
    (by decide) (by decide) hc
  have hbul : ∀ b ∈ bs,
      pyStrip ("- " ++ b) = "- " ++ b ∧ ("- " ++ b) ≠ "" ∧
        '\n' ∉ ("- " ++ b).data := by
    intro b hb
    exact markerLine_good (show "- ".data = '-' :: " ".data from rfl)
      (by decide) (by decide) (hbs b hb)
  have hAll : ∀ l ∈ (["Subject: " ++ s, "Opener: " ++ o, "Bullets:"]
      ++ bs.map (fun b => "- " ++ b) ++ ["CTA: " ++ c]),
      pyStrip l = l ∧ l ≠ "" ∧ '\n' ∉ l.data := by
    intro l hl
    rw [List.append_assoc] at hl
    rcases List.mem_append.mp hl with h3 | hrest
    · rcases List.mem_cons.mp h3 with rfl | h3
      · exact hsubj
      rcases List.mem_cons.mp h3 with rfl | h3
      · exact hopen
      rcases List.mem_cons.mp h3 with rfl | h3
      · exact ⟨by decide, by decide, by decide⟩
      · exact absurd h3 (List.not_mem_nil l)
    · rcases List.mem_append.mp hrest with hmap | hone
      · obtain ⟨b, hb, rfl⟩ := List.mem_map.mp hmap
        exact hbul b hb
      · rcases List.mem_cons.mp hone with rfl | hnil
        · exact hcta
        · exact absurd hnil (List.not_mem_nil l)
  have hlines : parseLines (docFormat s o bs c) =
      ["Subject: " ++ s, "Opener: " ++ o, "Bullets:"]
        ++ bs.map (fun b => "- " ++ b) ++ ["CTA: " ++ c] := by
    apply parseLines_joinLines
    · simp
    · exact fun l hl => (hAll l hl).2.2
    · exact fun l hl => (hAll l hl).1
    · exact fun l hl => (hAll l hl).2.1
  unfold parse_output
  rw [hlines]
  simp only [List.cons_append, List.nil_append, List.foldl_cons]
  rw [parseStep_subject initParseState s hs.1]
  rw [parseStep_opener _ o ho.1]
  rw [parseStep_bullets_marker]
  rw [List.foldl_append]
  rw [foldl_dash_lines bs _ rfl (fun b hb => (hbs b hb).1)]
  simp only [List.foldl_cons, List.foldl_nil]
  rw [parseStep_cta _ c hc.1]
  simp [initParseState]

/-- Concrete instance of the parser round-trip with two bullets. -/
theorem parse_output_roundtrip_witness :
    parse_output (docFormat "Quick wins" "Saw your store." ["Auto-replies", "Weekly report"] "Call this week?") =
      { subject := "Quick wins", opener := "Saw your store.",
        bullet1 := "Auto-replies", bullet2 := "Weekly report",
        bullet3 := "", cta := "Call this week?" } :=
  parse_output_roundtrip "Quick wins" "Saw your store."
    "Call this week?" ["Auto-replies", "Weekly report"]
    ⟨by decide, by decide, by decide⟩ ⟨by decide, by decide, by decide⟩
    ⟨by decide, by decide, by decide⟩ (by decide)

/-- Splitting a join of newline-free lines recovers the lines, before any
stripping or filtering. -/
theorem pySplitlines_joinLines (ls : List String) (hne : ls ≠ [])
    (hnl : ∀ l ∈ ls, '\n' ∉ l.data) : pySplitlines (joinLines ls) = ls := by
  unfold pySplitlines joinLines
  rw [show (String.mk (joinL (ls.map String.data))).data
    = joinL (ls.map String.data) from rfl]
  rw [splitlinesL_joinL _ (by simpa using hne)
    (by
      intro l hl
      obtain ⟨x, hx, rfl⟩ := List.mem_map.mp hl
      exact hnl x hx)]
  rw [List.map_map]
  rw [show ((fun cs => String.mk cs) ∘ String.data) = id from rfl, List.map_id]

/-- C9: while in bullet mode a line of `-` followed only by whitespace is
collected as an empty-string bullet and consumes a slot, so a later
non-empty bullet lands in the following slot; bullets are not filtered for
emptiness before slot assignment, and a bullet pushed past the third slot
this way is discarded. -/
theorem empty_bullet_consumes_slot :
    (∀ (w b : String),
      (∀ ch ∈ w.data, isPySpace ch = true) → '\n' ∉ w.data →
      pyStrip b = b → b ≠ "" → '\n' ∉ b.data →
      parse_output (joinLines ["Bullets:", "-" ++ w, "- " ++ b]) =
        { subject := "", opener := "", bullet1 := "", bullet2 := b,
          bullet3 := "", cta := "" })
    ∧ parse_output "Bullets:\n-\n- a\n- b\n- c" =
        { subject := "", opener := "", bullet1 := "", bullet2 := "a",
          bullet3 := "b", cta := "" } := by
  constructor
  · intro w b hw hwnl hb hbne hbnl
    have h1 : pyStrip ("-" ++ w) = "-" := by
      apply strEq_of_data
      show stripL ("-" ++ w).data = "-".data
      rw [String.data_append]
      exact stripL_dash_spaces hw
    have h2 : pyStrip ("- " ++ b) = "- " ++ b :=
      pyStrip_append_of (show "- ".data = '-' :: " ".data from rfl)
        (by decide) hb hbne
    have hsplit : pySplitlines (joinLines ["Bullets:", "-" ++ w, "- " ++ b])
        = ["Bullets:", "-" ++ w, "- " ++ b] := by
      apply pySplitlines_joinLines _ (by simp)
      intro l hl
      rcases List.mem_cons.mp hl with rfl | hl
      · decide
      rcases List.mem_cons.mp hl with rfl | hl
      · rw [String.data_append]
        intro hm
        rcases List.mem_append.mp hm with h | h
        · revert h
          decide
        · exact hwnl h
      rcases List.mem_cons.mp hl with rfl | hl
      · rw [String.data_append]
        intro hm
        rcases List.mem_append.mp hm with h | h
        · revert h
          decide
        · exact hbnl h
      · exact absurd hl (List.not_mem_nil l)
    have hbne' : ("- " ++ b) ≠ "" := by
      intro h
      have := congrArg String.data h
      rw [String.data_append] at this
      simp at this
    unfold parse_output parseLines
    rw [hsplit]
    simp only [List.map_cons, List.map_nil, h1, h2]
    rw [show pyStrip "Bullets:" = "Bullets:" from rfl]
    have hf : List.filter (fun l => l != "") ["Bullets:", "-", "- " ++ b]
        = ["Bullets:", "-", "- " ++ b] := by
      apply List.filter_eq_self.mpr
      intro l hl
      rcases List.mem_cons.mp hl with rfl | hl
      · decide
      rcases List.mem_cons.mp hl with rfl | hl
      · decide
      rcases List.mem_cons.mp hl with rfl | hl
      · simpa using hbne'
      · exact absurd hl (List.not_mem_nil l)
    rw [hf]
    simp only [List.foldl_cons, List.foldl_nil]
    rw [parseStep_bullets_marker, parseStep_dash_empty _ rfl,
      parseStep_dash _ b hb rfl]
    simp [initParseState]
  · decide

/-- Concrete instance: a dash-plus-space line consumes the first bullet
slot, pushing the next bullet to slot two. -/
theorem empty_bullet_consumes_slot_witness :
    parse_output (joinLines ["Bullets:", "- ", "- Auto"]) =
      { subject := "", opener := "", bullet1 := "", bullet2 := "Auto",
        bullet3 := "", cta := "" } :=
  empty_bullet_consumes_slot.1 " " "Auto" (by decide) (by decide)
    (by decide) (by decide) (by decide)

/-- Scan steps never change `cta` unless the line carries the `cta:` marker. -/
theorem parseStep_cta_unchanged (st : ParseState) (l : String)
    (h : pyStartsWith (pyLower l) "cta:" = false) :
    (parseStep st l).cta = st.cta := by
  simp only [parseStep]
  split_ifs <;> simp_all

/-- Scan steps never change `subject` unless the line carries the marker. -/
theorem parseStep_subject_unchanged (st : ParseState) (l : String)
    (h : pyStartsWith (pyLower l) "subject:" = false) :
    (parseStep st l).subject = st.subject := by
  simp only [parseStep]
  split_ifs <;> simp_all

/-- Scan steps never change `opener` unless the line carries the marker. -/
theorem parseStep_opener_unchanged (st : ParseState) (l : String)
    (h : pyStartsWith (pyLower l) "opener:" = false) :
    (parseStep st l).opener = st.opener := by
  simp only [parseStep]
  split_ifs <;> simp_all

/-- Without a `Bullets:` marker the scan never enters bullet mode and never
collects a bullet. -/
theorem foldl_bullets_invariant (lines : List String) :
    ∀ st : ParseState,
      (∀ l ∈ lines, pyStartsWith (pyLower l) "bullets:" = false) →
      st.inBullets = false →
      (List.foldl parseStep st lines).bullets = st.bullets ∧
        (List.foldl parseStep st lines).inBullets = false := by
  induction lines with
  | nil => intro st _ hst; exact ⟨rfl, hst⟩
  | cons l t ih =>
      intro st hl hst
      have hmarker := hl l (by simp)
      have hstep : (parseStep st l).bullets = st.bullets ∧
          (parseStep st l).inBullets = false := by
        simp only [parseStep]
        split_ifs <;> simp_all
      simp only [List.foldl_cons]
      have := ih (parseStep st l) (fun x hx => hl x (by simp [hx])) hstep.2
      rw [this.1, hstep.1]
      exact ⟨rfl, this.2⟩

/-- Fold-level version of the `cta` preservation. -/
theorem foldl_cta_invariant (lines : List String) :
    ∀ st : ParseState,
      (∀ l ∈ lines, pyStartsWith (pyLower l) "cta:" = false) →
      (List.foldl parseStep st lines).cta = st.cta := by
  induction lines with
  | nil => intro st _; rfl
  | cons l t ih =>
      intro st hl
      simp only [List.foldl_cons]
      rw [ih (parseStep st l) (fun x hx => hl x (by simp [hx]))]
      exact parseStep_cta_unchanged st l (hl l (by simp))

/-- Fold-level version of the `subject` preservation. -/
theorem foldl_subject_invariant (lines : List String) :
    ∀ st : ParseState,
      (∀ l ∈ lines, pyStartsWith (pyLower l) "subject:" = false) →
      (List.foldl parseStep st lines).subject = st.subject := by
  induction lines with
  | nil => intro st _; rfl
  | cons l t ih =>
      intro st hl
      simp only [List.foldl_cons]
      rw [ih (parseStep st l) (fun x hx => hl x (by simp [hx]))]
      exact parseStep_subject_unchanged st l (hl l (by simp))

/-- Fold-level version of the `opener` preservation. -/
theorem foldl_opener_invariant (lines : List String) :
    ∀ st : ParseState,
      (∀ l ∈ lines, pyStartsWith (pyLower l) "opener:" = false) →
      (List.foldl parseStep st lines).opener = st.opener := by
  induction lines with
  | nil => intro st _; rfl
  | cons l t ih =>
      intro st hl
      simp only [List.foldl_cons]
      rw [ih (parseStep st l) (fun x hx => hl x (by simp [hx]))]
      exact parseStep_opener_unchanged st l (hl l (by simp))

/-- C6: `parse_output` is total by construction (a Lean function on all of
`String`; the only partial Python operation, `l.split(":",1)[1]`, sits
behind a `startswith` guard that ensures the colon exists, see
`afterFirstColon`), and it is defensive: any field whose marker is absent
among the scanned lines is the empty string — in particular a missing
`CTA:` line yields an empty `cta`, a missing `Bullets:` marker yields three
empty bullets — and a line matching none of the five patterns leaves the
scan state untouched. -/
theorem parse_output_defensive_defaults :
    (∀ text, (∀ l ∈ parseLines text, pyStartsWith (pyLower l) "cta:" = false) →
        (parse_output text).cta = "")
    ∧ (∀ text, (∀ l ∈ parseLines text, pyStartsWith (pyLower l) "subject:" = false) →
        (parse_output text).subject = "")
    ∧ (∀ text, (∀ l ∈ parseLines text, pyStartsWith (pyLower l) "opener:" = false) →
        (parse_output text).opener = "")
    ∧ (∀ text, (∀ l ∈ parseLines text, pyStartsWith (pyLower l) "bullets:" = false) →
        (parse_output text).bullet1 = "" ∧ (parse_output text).bullet2 = ""
          ∧ (parse_output text).bullet3 = "")
    ∧ (∀ (st : ParseState) (l : String),
        pyStartsWith (pyLower l) "subject:" = false →
        pyStartsWith (pyLower l) "opener:" = false →
        pyStartsWith (pyLower l) "bullets:" = false →
        (pyStartsWith l "-" && st.inBullets) = false →
        pyStartsWith (pyLower l) "cta:" = false →
        parseStep st l = st) := by
  refine ⟨?_, ?_, ?_, ?_, ?_⟩
  · intro text h
    unfold parse_output
    exact foldl_cta_invariant (parseLines text) initParseState h
  · intro text h
    unfold parse_output
    exact foldl_subject_invariant (parseLines text) initParseState h
  · intro text h
    unfold parse_output
    exact foldl_opener_invariant (parseLines text) initParseState h
  · intro text h
    have hb := foldl_bullets_invariant (parseLines text) initParseState h rfl
    refine ⟨?_, ?_, ?_⟩
    · show (List.foldl parseStep initParseState (parseLines text)).bullets.getD 0 "" = ""
      rw [hb.1]
      rfl
    · show (List.foldl parseStep initParseState (parseLines text)).bullets.getD 1 "" = ""
      rw [hb.1]
      rfl
    · show (List.foldl parseStep initParseState (parseLines text)).bullets.getD 2 "" = ""
      rw [hb.1]
      rfl
  · intro st l h0 h1 h2 h3 h4
    simp only [parseStep]
    split_ifs <;> simp_all

/-- Concrete instances: a response with no `CTA:` line parses to an empty
`cta`, and a line matching no pattern is ignored by the scan. -/
theorem parse_output_defensive_defaults_witness :
    (parse_output "Subject: Hi\nOpener: Yo\nBullets:\n- a").cta = ""
      ∧ parseStep initParseState "no marker here" = initParseState :=
  ⟨parse_output_defensive_defaults.1 "Subject: Hi\nOpener: Yo\nBullets:\n- a"
      (by decide),
    parse_output_defensive_defaults.2.2.2.2 initParseState "no marker here"
      (by decide) (by decide) (by decide) (by decide) (by decide)⟩

/-- A row is processed exactly when both required fields survive
trimming. -/
theorem rowOutcome_isSome (client : Oracle) (d : String) (row : Row) :
    (rowOutcome client d row).isSome = isValidRow row := by
  unfold rowOutcome isValidRow
  by_cases h1 : pyStrip (row.company_name.getD "") = "" <;>
    by_cases h2 : pyStrip (row.niche.getD "") = "" <;> simp [h1, h2]

/-- Loop states accumulate: records, skip log and usage totals of a fold of
`mainStep` decompose over the processed prefix. -/
theorem foldl_mainStep_spec (client : Oracle) (d : String) (rows : List Row) :
    ∀ st : RunState,
      (List.foldl (mainStep client d) st rows).records
          = st.records ++ rows.filterMap (rowRecord client d)
      ∧ (List.foldl (mainStep client d) st rows).skipped
          = st.skipped ++ rows.filter (fun r => !(isValidRow r))
      ∧ (List.foldl (mainStep client d) st rows).total.prompt_tokens
          = st.total.prompt_tokens
            + ((rows.filter (fun r => isValidRow r)).map
                (fun r => (rowUsage client d r).prompt_tokens)).sum
      ∧ (List.foldl (mainStep client d) st rows).total.completion_tokens
          = st.total.completion_tokens
            + ((rows.filter (fun r => isValidRow r)).map
                (fun r => (rowUsage client d r).completion_tokens)).sum
      ∧ (List.foldl (mainStep client d) st rows).total.total_tokens
          = st.total.total_tokens
            + ((rows.filter (fun r => isValidRow r)).map
                (fun r => (rowUsage client d r).total_tokens)).sum := by
  induction rows with
  | nil => intro st; simp
  | cons r t ih =>
      intro st
      have hv := rowOutcome_isSome client d r
      simp only [List.foldl_cons]
      obtain ⟨h1, h2, h3, h4, h5⟩ := ih (mainStep client d st r)
      cases h : rowOutcome client d r with
      | none =>
          rw [h] at hv
          have hv' : isValidRow r = false := by simpa using hv.symm
          have hstep : mainStep client d st r
              = { st with skipped := st.skipped ++ [r] } := by
            simp [mainStep, h]
          refine ⟨?_, ?_, ?_, ?_, ?_⟩
          · rw [h1, hstep]
            simp [List.filterMap_cons, rowRecord, h]
          · rw [h2, hstep]
            simp [List.filter_cons, hv']
          · rw [h3, hstep]
            simp [List.filter_cons, hv']
          · rw [h4, hstep]
            simp [List.filter_cons, hv']
          · rw [h5, hstep]
            simp [List.filter_cons, hv']
      | some ru =>
          rw [h] at hv
          have hv' : isValidRow r = true := by simpa using hv.symm
          have hstep : mainStep client d st r
              = { st with records := st.records ++ [ru.1],
                          total := addUsage st.total ru.2 } := by
            simp [mainStep, h]
          have hru : rowUsage client d r = ru.2 := by
            simp [rowUsage, h]
          refine ⟨?_, ?_, ?_, ?_, ?_⟩
          · rw [h1, hstep]
            simp [List.filterMap_cons, rowRecord, h]
          · rw [h2, hstep]
            simp [List.filter_cons, hv']
          · rw [h3, hstep]
            simp [List.filter_cons, hv', hru, addUsage]
            omega
          · rw [h4, hstep]
            simp [List.filter_cons, hv', hru, addUsage]
            omega
          · rw [h5, hstep]
            simp [List.filter_cons, hv', hru, addUsage]
            omega

/-- C1: the loop emits exactly the records of the valid rows, one each, in
order (`filterMap` of the per-row outcome, which is `some` precisely on rows
whose trimmed `company_name` and `niche` are both non-empty), and logs
exactly the invalid rows as skipped while continuing with the remaining
rows. -/
theorem main_loop_emits_one_record_per_valid_row (client : Oracle)
    (d : String) (rows : List Row) :
    (runMain client d rows).records = rows.filterMap (rowRecord client d)
    ∧ (runMain client d rows).skipped
        = rows.filter (fun r => !(isValidRow r))
    ∧ ∀ row : Row, (rowRecord client d row).isSome = isValidRow row := by
  obtain ⟨h1, h2, _⟩ := foldl_mainStep_spec client d rows initRunState
  refine ⟨?_, ?_, ?_⟩
  · simpa [runMain, initRunState] using h1
  · simpa [runMain, initRunState] using h2
  · intro row
    rw [show rowRecord client d row = (rowOutcome client d row).map Prod.fst from rfl]
    have h := rowOutcome_isSome client d row
    cases hr : rowOutcome client d row <;> rw [hr] at h <;> simpa using h

/-- C7: the final usage totals are the component-wise sums of the usages the
service reported for the processed (valid) rows — skipped rows contribute
nothing — and the reported grand cost is `est_cost` of that summed
usage. -/
theorem usage_totals_are_sums (client : Oracle) (d : String)
    (rows : List Row) :
    (runMain client d rows).total.prompt_tokens
        = ((rows.filter (fun r => isValidRow r)).map
            (fun r => (rowUsage client d r).prompt_tokens)).sum
    ∧ (runMain client d rows).total.completion_tokens
        = ((rows.filter (fun r => isValidRow r)).map
            (fun r => (rowUsage client d r).completion_tokens)).sum
    ∧ (runMain client d rows).total.total_tokens
        = ((rows.filter (fun r => isValidRow r)).map
            (fun r => (rowUsage client d r).total_tokens)).sum
    ∧ grandCost (runMain client d rows)
        = est_cost
            { prompt_tokens := ((rows.filter (fun r => isValidRow r)).map
                (fun r => (rowUsage client d r).prompt_tokens)).sum,
              completion_tokens := ((rows.filter (fun r => isValidRow r)).map
                (fun r => (rowUsage client d r).completion_tokens)).sum,
              total_tokens := ((rows.filter (fun r => isValidRow r)).map
                (fun r => (rowUsage client d r).total_tokens)).sum } := by
  obtain ⟨_, _, h3, h4, h5⟩ := foldl_mainStep_spec client d rows initRunState
  have h3' : (runMain client d rows).total.prompt_tokens
      = ((rows.filter (fun r => isValidRow r)).map
          (fun r => (rowUsage client d r).prompt_tokens)).sum := by
    simpa [runMain, initRunState] using h3
  have h4' : (runMain client d rows).total.completion_tokens
      = ((rows.filter (fun r => isValidRow r)).map
          (fun r => (rowUsage client d r).completion_tokens)).sum := by
    simpa [runMain, initRunState] using h4
  have h5' : (runMain client d rows).total.total_tokens
      = ((rows.filter (fun r => isValidRow r)).map
          (fun r => (rowUsage client d r).total_tokens)).sum := by
    simpa [runMain, initRunState] using h5
  refine ⟨h3', h4', h5', ?_⟩
  unfold grandCost est_cost
  rw [h3', h4']


/-- Joining lines that end with a fixed non-empty line ends with the last
character of that line, and in particular is never empty. -/
theorem joinL_append_singleton_getLast? (y : List Char) (hy : y ≠ []) :
    ∀ ls : List (List Char),
      (joinL (ls ++ [y])).getLast? = y.getLast? ∧ joinL (ls ++ [y]) ≠ [] := by
  intro ls
  induction ls with
  | nil => exact ⟨rfl, hy⟩
  | cons x t ih =>
      have hcons : ∃ z u, t ++ [y] = z :: u := by
        cases ht : t ++ [y] with
        | nil => exact absurd ht (by simp)
        | cons z u => exact ⟨z, u, rfl⟩
      obtain ⟨z, u, hzu⟩ := hcons
      have hjoin : joinL ((x :: t) ++ [y]) = x ++ '\n' :: joinL (t ++ [y]) := by
        rw [List.cons_append, hzu]
        rfl
      constructor
      · rw [hjoin]
        obtain ⟨c, hc⟩ : ∃ c, y.getLast? = some c := by
          cases hgl : y.getLast? with
          | none => exact absurd (List.getLast?_eq_none_iff.mp hgl) hy
          | some c => exact ⟨c, rfl⟩
        rw [show ('\n' :: joinL (t ++ [y])) = ['\n'] ++ joinL (t ++ [y]) from rfl]
        rw [List.getLast?_append, List.getLast?_append, ih.1, hc]
        rfl
      · rw [hjoin]
        simp

/-- Bodies closing with the fixed signature end in its final character,
hence never in a newline. -/
theorem last_char_of_signature_join (ls : List String) :
    (joinLines (ls ++ ["", "Best,", "Magnusbane Team"])).data.getLast?
      = some 'm' := by
  have h1 : ls ++ ["", "Best,", "Magnusbane Team"]
      = (ls ++ ["", "Best,"]) ++ ["Magnusbane Team"] := by simp
  rw [h1]
  unfold joinLines
  rw [show (String.mk (joinL (((ls ++ ["", "Best,"]) ++ ["Magnusbane Team"]).map String.data))).data
    = joinL (((ls ++ ["", "Best,"]) ++ ["Magnusbane Team"]).map String.data) from rfl]
  rw [List.map_append]
  rw [show List.map String.data ["Magnusbane Team"] = ["Magnusbane Team".data] from rfl]
  rw [(joinL_append_singleton_getLast? ("Magnusbane Team".data) (by decide)
    ((ls ++ ["", "Best,"]).map String.data)).1]
  rfl

/-- C4 (amended): the composed body equals the §4.4 description with
emptiness judged after trimming — trimmed opener first; a blank line, the
language-selected heading and one `- <bullet>` line per bullet non-empty
after trimming, the whole block omitted when all three bullets trim to
empty; a blank line and the trimmed call-to-action when it trims non-empty;
then a blank line, the fixed closing and the fixed signature — all joined
by single newlines; and the body ends in the signature's final character,
so it carries no trailing newline. -/
theorem build_email_body_structure (company niche : String)
    (parsed : ParsedOut) (lang : String) :
    build_email_body company niche parsed lang
        = joinLines (spec_email_body_lines parsed lang)
    ∧ (build_email_body company niche parsed lang).data.getLast? = some 'm' := by
  constructor
  · unfold build_email_body build_email_body_lines spec_email_body_lines
    by_cases h1 : pyStrip parsed.bullet1 = "" <;>
      by_cases h2 : pyStrip parsed.bullet2 = "" <;>
        by_cases h3 : pyStrip parsed.bullet3 = "" <;>
          simp [h1, h2, h3]
  · obtain ⟨front, hfront⟩ : ∃ front,
        build_email_body_lines company niche parsed lang
          = front ++ ["", "Best,", "Magnusbane Team"] := ⟨_, rfl⟩
    rw [show build_email_body company niche parsed lang
      = joinLines (build_email_body_lines company niche parsed lang) from rfl]
    rw [hfront]
    exact last_char_of_signature_join front

/-- C4 counterexample: a whitespace-only bullet is a non-empty string, yet
the composed body omits the heading block entirely, because the source
judges emptiness after trimming; the claim read over raw `ParsedMessage`
fields is therefore false. -/
theorem build_email_body_whitespace_bullet_counterexample :
    ({ subject := "", opener := "", bullet1 := " ", bullet2 := "",
        bullet3 := "", cta := "" } : ParsedOut).bullet1 ≠ ""
    ∧ build_email_body "c" "n"
        { subject := "", opener := "", bullet1 := " ", bullet2 := "",
          bullet3 := "", cta := "" } "English" = "\n\nBest,\nMagnusbane Team"
    ∧ "What we can deliver in 1 week:" ∉ build_email_body_lines "c" "n"
        { subject := "", opener := "", bullet1 := " ", bullet2 := "",
          bullet3 := "", cta := "" } "English" := by
  refine ⟨by decide, by decide, by decide⟩

/-- C5 counterexample: `"Romanian"` is not `"ro"` in any casing, yet it
selects the Romanian heading, because the source tests
`lang.lower().startswith("ro")`, not equality. -/
theorem heading_selection_counterexample :
    pyLower "Romanian" ≠ "ro"
    ∧ "Ce putem livra în 1 săptămână:" ∈ build_email_body_lines "c" "n"
        { subject := "", opener := "o", bullet1 := "x", bullet2 := "",
          bullet3 := "", cta := "" } "Romanian"
    ∧ "What we can deliver in 1 week:" ∉ build_email_body_lines "c" "n"
        { subject := "", opener := "o", bullet1 := "x", bullet2 := "",
          bullet3 := "", cta := "" } "Romanian" := by
  refine ⟨by decide, by decide, by decide⟩

/-- C5 (amended): whenever the bullet block is present, the heading line
(the third body line) is the Romanian text exactly when the lowercased
language tag starts with `"ro"` — which includes `"ro"` itself in any
casing but also any longer tag such as `"Romanian"` — and the English
default otherwise. -/
theorem heading_selection (company niche : String) (parsed : ParsedOut)
    (lang : String)
    (hb : pyStrip parsed.bullet1 ≠ "" ∨ pyStrip parsed.bullet2 ≠ ""
      ∨ pyStrip parsed.bullet3 ≠ "") :
    (build_email_body_lines company niche parsed lang).getD 2 ""
      = (if pyStartsWith (pyLower lang) "ro" = true then
          "Ce putem livra în 1 săptămână:"
        else
          "What we can deliver in 1 week:") := by
  unfold build_email_body_lines
  rcases hb with h | h | h <;> by_cases hro : pyStartsWith (pyLower lang) "ro" = true <;>
    simp [h, hro, List.getD]

/-- Concrete instance: an upper-cased `"rO"` tag selects the Romanian
heading. -/
theorem heading_selection_witness :
    (build_email_body_lines "c" "n"
        { subject := "", opener := "o", bullet1 := "x", bullet2 := "",
          bullet3 := "", cta := "" } "rO").getD 2 ""
      = "Ce putem livra în 1 săptămână:" :=
  heading_selection "c" "n"
    { subject := "", opener := "o", bullet1 := "x", bullet2 := "",
      bullet3 := "", cta := "" } "rO" (Or.inl (by decide))

/-- C10 counterexample: with the untrimmed default `" English "`, a
whitespace-only `lang` cell falls back to the raw default while a missing
`lang` column falls back to the trimmed default — the two differ and the
former is not trimmed. -/
theorem effLang_whitespace_counterexample :
    effLang (some " ") " English " = " English "
    ∧ effLang none " English " = "English"
    ∧ " English " ≠ "English" := by
  refine ⟨by decide, by decide, by decide⟩

/-- C10 (amended): an empty `lang` cell behaves exactly like a missing
column — both yield the trimmed default, or the raw default when the
default trims to empty — while a whitespace-only non-empty cell yields the
raw default; the behaviours coincide whenever the default is already
trimmed.  Processed rows carry this effective language into their output
record. -/
theorem effLang_fallback :
    (∀ d : String, effLang (some "") d = effLang none d)
    ∧ (∀ d : String, effLang none d = (if pyStrip d = "" then d else pyStrip d))
    ∧ (∀ s d : String, pyStrip s = "" → s ≠ "" → effLang (some s) d = d)
    ∧ (∀ s d : String, pyStrip s = "" → pyStrip d = d →
        effLang (some s) d = effLang none d)
    ∧ (∀ (client : Oracle) (d : String) (row : Row) (rec : OutRecord),
        rowRecord client d row = some rec → rec.lang = effLang row.lang d) := by
  refine ⟨?_, ?_, ?_, ?_, ?_⟩
  · intro d
    rfl
  · intro d
    rfl
  · intro s d h hne
    simp [effLang, pyOrStr, hne, h]
  · intro s d h hd
    by_cases hs : s = ""
    · subst hs
      rfl
    · simp [effLang, pyOrStr, hs, h, hd]
  · intro client d row rec h
    revert h
    unfold rowRecord rowOutcome
    by_cases h1 : pyStrip (row.company_name.getD "") = ""
    · intro h
      exfalso
      simp [h1] at h
    · by_cases h2 : pyStrip (row.niche.getD "") = ""
      · intro h
        exfalso
        simp [h1, h2] at h
      · intro h
        simp only [h1, h2, decide_eq_true_eq, if_false, Bool.or_self,
          decide_False, Bool.false_eq_true, Option.map_some', Option.some.injEq] at h
        rw [← h]

/-- Concrete instance: an empty cell and a missing column agree, and a
whitespace-only cell falls back to the (trimmed) default. -/
theorem effLang_fallback_witness :
    effLang (some "") "English" = effLang none "English"
    ∧ effLang (some " \t") "English" = "English" :=
  ⟨effLang_fallback.1 "English",
    effLang_fallback.2.2.1 " \t" "English" (by decide) (by decide)⟩

/-- C8: `main` checks the credential before anything else and the input
file before opening the output file or reading any row; each failure is a
fatal error carrying no run state — no row is processed and no output is
written. -/
theorem main_run_config_errors :
    (∀ (env : List (String × String)) (infile : String) (ex : Bool)
        (client : Oracle) (d : String) (rows : List Row),
        env.lookup "OPENAI_API_KEY" = none →
        main_run env infile ex client d rows
          = .error "Missing OPENAI_API_KEY. Put it in your environment or a .env file.")
    ∧ (∀ (env : List (String × String)) (infile : String) (client : Oracle)
        (d : String) (rows : List Row) (k : String),
        env.lookup "OPENAI_API_KEY" = some k →
        main_run env infile false client d rows
          = .error ("Input CSV not found: " ++ infile)) := by
  constructor
  · intro env infile ex client d rows h
    simp [main_run, h]
  · intro env infile client d rows k h
    simp [main_run, h]

/-- Concrete instances of both fatal configuration errors. -/
theorem main_run_config_errors_witness :
    main_run [] "prospects_sample.csv" true (fun _ _ _ _ => ("", {}))
        "English" []
      = .error "Missing OPENAI_API_KEY. Put it in your environment or a .env file."
    ∧ main_run [("OPENAI_API_KEY", "k")] "missing.csv" false
        (fun _ _ _ _ => ("", {})) "English" []
      = .error ("Input CSV not found: " ++ "missing.csv") :=
  ⟨main_run_config_errors.1 [] "prospects_sample.csv" true
      (fun _ _ _ _ => ("", {})) "English" [] rfl,
    main_run_config_errors.2 [("OPENAI_API_KEY", "k")] "missing.csv"
      (fun _ _ _ _ => ("", {})) "English" [] "k" rfl⟩


/-- Digit characters are never the decimal point. -/
theorem digitChar_ne_dot (d : Nat) : digitChar d ≠ '.' := by
  unfold digitChar
  split <;> decide

/-- The digit accumulator never introduces a decimal point. -/
theorem natToDigitsAux_ne_dot :
    ∀ (n : Nat) (acc : List Char), (∀ ch ∈ acc, ch ≠ '.') →
      ∀ ch ∈ natToDigitsAux n acc, ch ≠ '.' := by
  intro n
  induction n using Nat.strong_induction_on with
  | _ n ih =>
      intro acc hacc
      cases n with
      | zero => simpa [natToDigitsAux] using hacc
      | succ m =>
          rw [natToDigitsAux]
          apply ih ((m + 1) / 10) (Nat.div_lt_self (Nat.succ_pos m) (by norm_num))
          intro ch hch
          rcases List.mem_cons.mp hch with rfl | hch
          · exact digitChar_ne_dot _
          · exact hacc ch hch

/-- Decimal renderings of naturals contain no decimal point. -/
theorem natToString_ne_dot (n : Nat) :
    ∀ ch ∈ (natToString n).data, ch ≠ '.' := by
  unfold natToString
  split
  · intro ch hch
    rcases List.mem_singleton.mp hch with rfl
    decide
  · intro ch hch
    exact natToDigitsAux_ne_dot n [] (by simp) ch hch

/-- Dropping a dot-free block stops exactly at the decimal point. -/
theorem dropWhile_to_dot (l r : List Char) (h : ∀ ch ∈ l, ch ≠ '.') :
    List.dropWhile (fun c => c != '.') (l ++ '.' :: r) = '.' :: r := by
  induction l with
  | nil => simp [List.dropWhile_cons]
  | cons c t ih =>
      have hc : (c != '.') = true := by
        simpa using h c (by simp)
      simp only [List.cons_append, List.dropWhile_cons, hc, if_true]
      exact ih (fun x hx => h x (by simp [hx]))

/-- Fixed-point rendering always shows exactly six decimal places. -/
theorem formatFixed6_decimalPlaces (q : ℚ) :
    decimalPlaces (formatFixed6 q) = 6 := by
  unfold formatFixed6 decimalPlaces
  rw [show (natToString ((round (q * 1000000)).toNat / 1000000) ++ "." ++
      (⟨sixDigits ((round (q * 1000000)).toNat % 1000000)⟩ : String)).data
    = (natToString ((round (q * 1000000)).toNat / 1000000)).data
      ++ '.' :: sixDigits ((round (q * 1000000)).toNat % 1000000) by
    rw [String.data_append, String.data_append, List.append_assoc]
    rfl]
  rw [dropWhile_to_dot _ _ (natToString_ne_dot _)]
  rfl

/-- C3: the per-usage cost estimate is exactly
`prompt_tokens·(0.15/10^6) + completion_tokens·(0.60/10^6)` (Python float
arithmetic modelled by exact rationals; at the claim's sample point the
IEEE computation is also exact), so a million tokens of each kind cost
`0.75`; and the per-row `est_cost_usd` cell is always rendered with exactly
six decimal places. -/
theorem est_cost_formula_and_rendering :
    (∀ u : Usage, est_cost u
      = u.prompt_tokens * ((0.15 : ℚ) / 1000000)
        + u.completion_tokens * ((0.60 : ℚ) / 1000000))
    ∧ est_cost { prompt_tokens := 1000000,
                 completion_tokens := 1000000,
                 total_tokens := 2000000 } = 0.75
    ∧ (∀ u : Usage, decimalPlaces (est_cost_usd_str u) = 6) := by
  refine ⟨fun u => rfl, ?_, fun u => formatFixed6_decimalPlaces _⟩
  norm_num [est_cost, INPUT_PER_TOKEN, OUTPUT_PER_TOKEN]

end Outreach
